import Mathlib

/-!
# Verification of the `monon` money-arithmetic library

A shallow embedding of `monon/currency.py` and `monon/money.py`.

Modelling conventions:
* Python `decimal.Decimal` values are modelled by `Monon.Decimal`: a pair of an
  integer mantissa `m` and an integer exponent `e` denoting the exact value
  `m * 10 ^ e`.  The spec declares amounts to be arbitrary-precision exact
  decimals, so the 28-significant-digit context limit of CPython's default
  decimal context is not modelled; all sums, differences and products are exact,
  as they are in CPython for the magnitudes the library works with.
* Python exceptions are modelled by `Except Err`: a raised exception is an
  `.error` value that propagates through `bind`, exactly as an uncaught
  exception propagates in the source (none of the modelled code catches any).
* Python object aliasing of the mutable `operations` lists is modelled by a
  store (`Monon.Store`): each `Money` object holds a reference (`opsRef`) into
  the store, `copy.copy` copies the reference (shallow copy), and in-place
  operators mutate the store entry.  Operations thread the store explicitly.
-/

namespace Monon

/-- The two `decimal` rounding modes the library uses: `decimal.ROUND_UP`
(away from zero, the provider default) and `decimal.ROUND_DOWN` (toward zero,
available through `force_rounding`). -/
inductive Rounding
  | up
  | down
deriving DecidableEq

/-- An exact decimal number: the value `m * 10 ^ e`.  Models
`decimal.Decimal`, whose state is likewise a sign/coefficient (here the signed
mantissa `m`) and an exponent `e`. -/
structure Decimal where
  m : Int
  e : Int
deriving DecidableEq

/-- Round the nonnegative quotient `n / d` to an integer: `.up` rounds any
nonzero remainder away from zero (toward +∞ on this nonnegative input), `.down`
truncates.  `d` is expected positive. -/
def roundMag (n d : Nat) : Rounding → Nat
  | .up => (n + d - 1) / d
  | .down => n / d

/-- Quantization: `a.quantizeTo t r` is `a.quantize(Decimal(10) ** t, rounding=r)`: the value
of `a` rewritten with exponent exactly `t`.  If `t ≤ a.e` the rewrite is exact;
otherwise the mantissa is divided by `10 ^ (t - a.e)` and rounded by `r`,
symmetrically around zero (both `ROUND_UP` and `ROUND_DOWN` are
sign-symmetric). -/
def Decimal.quantizeTo (a : Decimal) (t : Int) (r : Rounding) : Decimal :=
  if t ≤ a.e then
    ⟨a.m * (10 : Int) ^ (a.e - t).toNat, t⟩
  else
    let d := (10 : Nat) ^ (t - a.e).toNat
    let q : Int := (roundMag a.m.natAbs d r : Int)
    ⟨if a.m < 0 then -q else q, t⟩

/-- Exact decimal addition: operands are aligned at the smaller exponent and
the mantissas added, as `decimal` does (no rounding in the unbounded model). -/
def Decimal.add (a b : Decimal) : Decimal :=
  ⟨a.m * (10 : Int) ^ (a.e - min a.e b.e).toNat
    + b.m * (10 : Int) ^ (b.e - min a.e b.e).toNat, min a.e b.e⟩

/-- Exact decimal subtraction, aligned like `Decimal.add`. -/
def Decimal.sub (a b : Decimal) : Decimal :=
  ⟨a.m * (10 : Int) ^ (a.e - min a.e b.e).toNat
    - b.m * (10 : Int) ^ (b.e - min a.e b.e).toNat, min a.e b.e⟩

/-- Exact decimal multiplication: mantissas multiply, exponents add. -/
def Decimal.mul (a b : Decimal) : Decimal :=
  ⟨a.m * b.m, a.e + b.e⟩

/-- Numeric equality of decimals (`Decimal.__eq__` compares values, not
representations: `Decimal('2.010') == Decimal('2.01')`). -/
def Decimal.numEq (a b : Decimal) : Bool :=
  a.m * (10 : Int) ^ (a.e - min a.e b.e).toNat
    == b.m * (10 : Int) ^ (b.e - min a.e b.e).toNat

/-- The exact rational value of a decimal. -/
def Decimal.val (a : Decimal) : ℚ :=
  (a.m : ℚ) * (10 : ℚ) ^ a.e

/-- The `CurrenciesProvider` capability interface of `currency.py`, as a record
of its per-isocode operations.  `get_rounding` carries the base-class default
body (`return ROUND_UP`), which concrete providers inherit unless they
override it.  `validate_currency` either passes (`true`) or rejects the code
(`false`, modelling the raised exception).  `format_amount` (pure string
display) is not needed by any verified property and is omitted. -/
structure CurrenciesProvider where
  get_decimal_places : String → Nat
  get_symbol : String → String
  validate_currency : String → Bool
  get_rounding : String → Rounding := fun _ => .up

/-- The `DefaultCurrenciesProvider`: 2 decimal places and the `$` symbol for
every code, every code valid, and the inherited `ROUND_UP` default rounding. -/
def DefaultCurrenciesProvider : CurrenciesProvider where
  get_decimal_places := fun _ => 2
  get_symbol := fun _ => "$"
  validate_currency := fun _ => true

/-- A constructed `Currency`: the cleaned isocode plus the provider captured at
construction time (`Currency._provider`). -/
structure Currency where
  isocode : String
  provider : CurrenciesProvider

/-- A live `Money` object: its (already cleaned) amount and currency, plus a
reference into the store for its mutable `operations` list. -/
structure Money where
  amount : Decimal
  currency : Currency
  opsRef : Nat

/-- A shallow copy (`copy.copy`) of a `Money` recorded as an operand snapshot:
the amount and currency at copy time, and the *shared* reference to the
original's `operations` list.  The snapshot taken inside `Money.__init__` is
copied before `self.operations` is assigned, so it has no reference
(`opsRef = none`). -/
structure MoneySnap where
  amount : Decimal
  currency : Currency
  opsRef : Option Nat

/-- The `MoneyOperator` enum of `money.py`. -/
inductive MoneyOperator
  | addition
  | substraction
  | multiplication
  | division
  | initialization
deriving DecidableEq

/-- An operand recorded in a `MoneyOperation`: a (shallow-copied) `Money`
snapshot or a `Decimal` (decimals are immutable, so `copy.copy` of one is the
value itself). -/
inductive Snap
  | money (s : MoneySnap)
  | dec (d : Decimal)

/-- A recorded operation: operator plus operand snapshots. -/
structure MoneyOperation where
  operator : MoneyOperator
  operands : List Snap

/-- The store of `operations` list objects.  An index plays the role of a
Python object reference to a mutable list. -/
abbrev Store := List (List MoneyOperation)

/-- Allocate a fresh `operations` list object, returning its reference. -/
def Store.alloc (σ : Store) (ops : List MoneyOperation) : Nat × Store :=
  (σ.length, σ ++ [ops])

/-- Append `op` (`list.append`) on the list object behind `ref`. -/
def Store.push (σ : Store) (ref : Nat) (op : MoneyOperation) : Store :=
  σ.set ref (σ.getD ref [] ++ [op])

/-- Read the list object behind `ref`. -/
def Store.log (σ : Store) (ref : Nat) : List MoneyOperation :=
  σ.getD ref []

/-- The right-hand operand of an arithmetic call, as the untyped source can
receive it: a `Money`, a Python `Number` with exact decimal value `d`
(int/bool/Decimal; also binary floats, whose exact value is a decimal), a
non-`Number` object whose `str()` parses as the decimal `d` (e.g. the string
`"5"`), or a non-`Number` object whose `str()` does not parse (e.g. `"abc"`,
a list, ...). -/
inductive Operand
  | money (m : Money)
  | num (d : Decimal)
  | strNum (d : Decimal)
  | junk

/-- Is this operand a Python `Number`? (`isinstance(other, Number)`). -/
def Operand.isNumber : Operand → Bool
  | .num _ => true
  | _ => false

/-- The currency argument of `Money.__init__`: a `Currency` object or a raw
code string. -/
inductive CurrencyIn
  | cur (c : Currency)
  | code (s : String)

/-- The exceptions of `exceptions.py` plus the two uncaught
`decimal` arithmetic exceptions division can raise (`DivisionByZero` for
`x / 0` with `x ≠ 0`, `InvalidOperation` for `0 / 0`). -/
inductive Err
  | invalidCurrency (isocode : String)
  | invalidAmount (amount : Operand)
  | invalidOperand (operand : Operand)
  | currencyMismatch (self other : Currency)
  | divisionByZero
  | invalidOperation

/-- The classmethod `Currency.clean_isocode`: require a 3-character string, canonicalize to
uppercase (`isocode.upper()`, modelled character-wise because the codes in
play are ASCII), else `InvalidCurrency`. -/
def Currency.clean_isocode (isocode : String) : Except Err String :=
  if isocode.length = 3 then .ok ⟨isocode.data.map Char.toUpper⟩
  else .error (.invalidCurrency isocode)

/-- The constructor `Currency.__init__`: bind the provider (the argument, or the process-wide
default — `Currency._default_provider`, whose startup value is
`DefaultCurrenciesProvider()`), clean the isocode, then let the provider
validate it. -/
def Currency.init (isocode : String) (provider : Option CurrenciesProvider) :
    Except Err Currency :=
  let p := provider.getD DefaultCurrenciesProvider
  match Currency.clean_isocode isocode with
  | .error e => .error e
  | .ok code =>
      if p.validate_currency code then .ok ⟨code, p⟩
      else .error (.invalidCurrency code)

/-- The target exponent of `Currency._get_quantizer`: the quantizer is
`Decimal(10) ** -decimal_places`, i.e. exponent `-decimal_places`. -/
def Currency.quantizer (c : Currency) : Int :=
  -(c.provider.get_decimal_places c.isocode : Int)

/-- The method `Currency.quantize_amount`: quantize to the provider's decimal places with
`force_rounding` if given, else the provider's rounding. -/
def Currency.quantize_amount (c : Currency) (a : Decimal)
    (force_rounding : Option Rounding) : Decimal :=
  a.quantizeTo c.quantizer (force_rounding.getD (c.provider.get_rounding c.isocode))

/-- Equality `Currency.__eq__`: currencies are equal iff their isocodes are (the
provider does not participate). -/
def Currency.eqb (a b : Currency) : Bool :=
  a.isocode == b.isocode

/-- The classmethod `Money.clean_amount(amount, currency)`: `Decimal(str(amount))` — which
succeeds for every `Number` and for a `strNum`, and raises a
`DecimalException` (re-raised as `InvalidAmount(amount)`) for anything whose
`str()` does not parse (a `Money`'s `str()` is its formatted display, which
never parses as a decimal) — then `currency.quantize_amount` on the result. -/
def Money.clean_amount (amount : Operand) (currency : Currency) : Except Err Decimal :=
  match amount with
  | .num d => .ok (currency.quantize_amount d none)
  | .strNum d => .ok (currency.quantize_amount d none)
  | .money _ => .error (.invalidAmount amount)
  | .junk => .error (.invalidAmount amount)

/-- The classmethod `Money.clean_currency`: pass a `Currency` through, promote a string via the
`Currency` constructor. -/
def Money.clean_currency : CurrencyIn → Except Err Currency
  | .cur c => .ok c
  | .code s => Currency.init s none

/-- Shallow copy `copy.copy(money)` at record time: shallow — the `operations` list
reference is shared, not copied. -/
def Money.snap (m : Money) : Snap :=
  .money ⟨m.amount, m.currency, some m.opsRef⟩

/-- The common tail of `Money.__init__` once `amount` and `currency` are
cleaned: set the fields, then allocate `self.operations` as a fresh one-element
list holding the INIT operation.  Its operand is `copy.copy(self)` taken while
`self.operations` is not yet assigned, so the snapshot carries no operations
reference. -/
def Money.mkCore (amount : Decimal) (currency : Currency) (σ : Store) :
    Money × Store :=
  let initOp : MoneyOperation := ⟨.initialization, [.money ⟨amount, currency, none⟩]⟩
  let (ref, σ') := Store.alloc σ [initOp]
  (⟨amount, currency, ref⟩, σ')

/-- The constructor `Money.__init__(amount, currency)`: clean the currency, clean (and thereby
quantize) the amount, then build the object with its INIT history. -/
def Money.init (amount : Operand) (currency : CurrencyIn) (σ : Store) :
    Except Err (Money × Store) := do
  let c ← Money.clean_currency currency
  let a ← Money.clean_amount amount c
  pure (Money.mkCore a c σ)

/-- Operand cleaning `Money._clean_operand(other)`: a `Number` is promoted to
`Money(other, self.currency)`; any other non-`Money` raises
`InvalidOperand(other)`; a `Money` must match `self`'s currency (by isocode,
per `Currency.__eq__`) or `CurrencyMismatch(self.currency, other.currency)` is
raised; a matching `Money` is returned as-is (not re-quantized). -/
def Money.clean_operand (self : Money) (other : Operand) (σ : Store) :
    Except Err (Money × Store) :=
  match other with
  | .num d => Money.init (.num d) (.cur self.currency) σ
  | .money o =>
      if Currency.eqb o.currency self.currency then .ok (o, σ)
      else .error (.currencyMismatch self.currency o.currency)
  | .strNum _ => .error (.invalidOperand other)
  | .junk => .error (.invalidOperand other)

/-- Addition `Money.__add__`: clean the operand, build
`Money(self.amount + other.amount, self.currency)` (whose constructor runs
`clean_amount`, hence quantizes the sum), then append one ADDITION operation
recording shallow copies of `self` and the cleaned operand to the *result*'s
history. -/
def Money.add (self : Money) (other : Operand) (σ : Store) :
    Except Err (Money × Store) := do
  let (o, σ1) ← Money.clean_operand self other σ
  let (result, σ2) ← Money.init (.num (self.amount.add o.amount)) (.cur self.currency) σ1
  pure (result, Store.push σ2 result.opsRef ⟨.addition, [self.snap, o.snap]⟩)

/-- Reverse addition `Money.__radd__`: delegates to `__add__`. -/
def Money.radd (self : Money) (other : Operand) (σ : Store) :
    Except Err (Money × Store) :=
  self.add other σ

/-- In-place addition `Money.__iadd__`: clean the operand, append one ADDITION operation to
`self`'s own history (snapshotting `self` before mutation), then mutate
`self.amount += other.amount` — with no re-quantization and no new object. -/
def Money.iadd (self : Money) (other : Operand) (σ : Store) :
    Except Err (Money × Store) := do
  let (o, σ1) ← Money.clean_operand self other σ
  let σ2 := Store.push σ1 self.opsRef ⟨.addition, [self.snap, o.snap]⟩
  pure ({ self with amount := self.amount.add o.amount }, σ2)

/-- Subtraction `Money.__sub__`: like `__add__` with `self.amount - other.amount` and a
SUBSTRACTION record. -/
def Money.sub (self : Money) (other : Operand) (σ : Store) :
    Except Err (Money × Store) := do
  let (o, σ1) ← Money.clean_operand self other σ
  let (result, σ2) ← Money.init (.num (self.amount.sub o.amount)) (.cur self.currency) σ1
  pure (result, Store.push σ2 result.opsRef ⟨.substraction, [self.snap, o.snap]⟩)

/-- Reverse subtraction `Money.__rsub__`: clean the scalar into a `Money` of `self`'s currency,
then compute `other.__sub__(self)` — the cleaned operand is the minuend. -/
def Money.rsub (self : Money) (other : Operand) (σ : Store) :
    Except Err (Money × Store) := do
  let (o, σ1) ← Money.clean_operand self other σ
  o.sub (.money self) σ1

/-- In-place subtraction `Money.__isub__`: in-place variant of `__sub__`, like `__iadd__`. -/
def Money.isub (self : Money) (other : Operand) (σ : Store) :
    Except Err (Money × Store) := do
  let (o, σ1) ← Money.clean_operand self other σ
  let σ2 := Store.push σ1 self.opsRef ⟨.substraction, [self.snap, o.snap]⟩
  pure ({ self with amount := self.amount.sub o.amount }, σ2)

/-- Multiplication `Money.__mul__`: reject non-`Number` operands with `InvalidOperand`, clean
the scalar through `clean_amount` (quantizing it to `self`'s currency), build
`Money(self.amount * cleaned_amount, self.currency)` and record a
MULTIPLICATION of `self` and the *cleaned* scalar. -/
def Money.mul (self : Money) (other : Operand) (σ : Store) :
    Except Err (Money × Store) :=
  if !other.isNumber then .error (.invalidOperand other) else do
    let cleaned ← Money.clean_amount other self.currency
    let (result, σ1) ← Money.init (.num (self.amount.mul cleaned)) (.cur self.currency) σ
    pure (result, Store.push σ1 result.opsRef ⟨.multiplication, [self.snap, .dec cleaned]⟩)

/-- Reverse multiplication `Money.__rmul__`: delegates to `__mul__`. -/
def Money.rmul (self : Money) (other : Operand) (σ : Store) :
    Except Err (Money × Store) :=
  self.mul other σ

/-- Decimal division immediately quantized at exponent `t` with rounding `r`.
In the source the quotient `self.amount / cleaned_amount` is a `Decimal`
(rounded to the context's 28 significant digits) that the `Money` constructor
immediately re-quantizes; the model takes the exact quotient and rounds once at
the constructor's target exponent, which agrees with the source whenever the
28-digit intermediate does not itself land on a quantization boundary. -/
def Decimal.divQuantized (a b : Decimal) (t : Int) (r : Rounding) : Decimal :=
  let e0 : Int := a.e - b.e - t
  let n : Int := a.m * (10 : Int) ^ e0.toNat
  let d : Int := b.m * (10 : Int) ^ (-e0).toNat
  let q : Int := (roundMag n.natAbs d.natAbs r : Int)
  ⟨if (n < 0 ∧ 0 ≤ d) ∨ (0 ≤ n ∧ d < 0) then -q else q, t⟩

/-- Division `Money.__truediv__`: clean the scalar through `clean_amount` (note: with no
`isinstance(other, Number)` guard, unlike `__mul__`), let `decimal` raise on a
zero divisor (`InvalidOperation` for `0 / 0`, else `DivisionByZero`), build
`Money` of the quantized quotient and record a DIVISION of `self` and the
cleaned scalar. -/
def Money.truediv (self : Money) (other : Operand) (σ : Store) :
    Except Err (Money × Store) := do
  let cleaned ← Money.clean_amount other self.currency
  if cleaned.m = 0 then
    if self.amount.m = 0 then throw .invalidOperation else throw .divisionByZero
  else
    let q := self.amount.divQuantized cleaned self.currency.quantizer
      (self.currency.provider.get_rounding self.currency.isocode)
    let (result, σ1) ← Money.init (.num q) (.cur self.currency) σ
    pure (result, Store.push σ1 result.opsRef ⟨.division, [self.snap, .dec cleaned]⟩)

/-- Negation `Money.__neg__`: `self * -1`. -/
def Money.neg (self : Money) (σ : Store) : Except Err (Money × Store) :=
  self.mul (.num ⟨-1, 0⟩) σ

/-- Equality `Money.__eq__`: exact numeric amount equality plus currency (isocode)
equality. -/
def Money.eqb (self other : Money) : Bool :=
  self.amount.numEq other.amount && Currency.eqb self.currency other.currency

/-! ## Concrete currencies and providers used in the examples -/

/-- The `Currency('USD')` value under the default provider. -/
def USD : Currency := ⟨"USD", DefaultCurrenciesProvider⟩

/-- The `Currency('EUR')` value under the default provider. -/
def EUR : Currency := ⟨"EUR", DefaultCurrenciesProvider⟩

/-- A custom metadata provider with three decimal places for every code — the
kind of pluggable provider `CurrenciesProvider` is designed for.  It inherits
the base class's `ROUND_UP` rounding. -/
def ThreeDPProvider : CurrenciesProvider where
  get_decimal_places := fun _ => 3
  get_symbol := fun _ => "$"
  validate_currency := fun _ => true

/-- The `Currency('USD', ThreeDPProvider)` value: equal to `USD` under `Currency.__eq__`
(same isocode), but quantizing to three decimal places. -/
def USD3 : Currency := ⟨"USD", ThreeDPProvider⟩

theorem Currency.init_USD : Currency.init "USD" none = .ok USD := rfl

/-! ## Supporting lemmas -/

theorem list_getD_set_self {α : Type} (l : List α) (n : Nat) (v d : α)
    (h : n < l.length) : (l.set n v).getD n d = v := by
  induction l generalizing n with
  | nil => simp at h
  | cons a tl ih =>
      cases n with
      | zero => rfl
      | succ k => simpa [List.getD] using ih k (by simpa using h)

theorem list_getD_set_ne {α : Type} (l : List α) (n k : Nat) (v d : α)
    (h : k ≠ n) : (l.set n v).getD k d = l.getD k d := by
  induction l generalizing n k with
  | nil => simp
  | cons a tl ih =>
      cases n with
      | zero => cases k with
          | zero => exact absurd rfl h
          | succ j => simp [List.getD]
      | succ n' => cases k with
          | zero => simp [List.getD]
          | succ j => simpa [List.getD] using ih n' j (by omega)

theorem list_getD_append_lt {α : Type} (l l' : List α) (n : Nat) (d : α)
    (h : n < l.length) : (l ++ l').getD n d = l.getD n d := by
  induction l generalizing n with
  | nil => simp at h
  | cons a tl ih =>
      cases n with
      | zero => rfl
      | succ k => simpa [List.getD] using ih k (by simpa using h)

theorem Store.log_push_self (σ : Store) (r : Nat) (op : MoneyOperation)
    (h : r < σ.length) :
    Store.log (Store.push σ r op) r = Store.log σ r ++ [op] :=
  list_getD_set_self σ r _ [] h

theorem Store.log_push_ne (σ : Store) (r k : Nat) (op : MoneyOperation)
    (h : k ≠ r) : Store.log (Store.push σ r op) k = Store.log σ k :=
  list_getD_set_ne σ r k _ [] h

theorem Store.log_append_lt (σ : Store) (ops : List MoneyOperation) (r : Nat)
    (h : r < σ.length) : Store.log (σ ++ [ops]) r = Store.log σ r :=
  list_getD_append_lt σ [ops] r [] h

theorem Decimal.add_comm' (a b : Decimal) : a.add b = b.add a := by
  unfold Decimal.add
  rw [min_comm b.e a.e]
  congr 1
  ring

theorem Decimal.numEq_refl (a : Decimal) : a.numEq a = true := by
  simp [Decimal.numEq]

theorem Decimal.quantizeTo_e (a : Decimal) (t : Int) (r : Rounding) :
    (a.quantizeTo t r).e = t := by
  unfold Decimal.quantizeTo
  split <;> rfl

/-- Quantizing a decimal already at the target exponent is the identity (any
rounding mode). -/
theorem Decimal.quantizeTo_exact (a : Decimal) (t : Int) (r : Rounding)
    (h : a.e = t) : a.quantizeTo t r = a := by
  subst h
  cases a with
  | mk m e => simp [Decimal.quantizeTo]

/-- Ceiling division, scaled back up, is at least the dividend. -/
theorem roundMag_up_ge (n d : Nat) (hd : 0 < d) : n ≤ roundMag n d .up * d := by
  show n ≤ (n + d - 1) / d * d
  calc n = (n + d - 1) - (d - 1) := by omega
    _ ≤ d * ((n + d - 1) / d) + (n + d - 1) % d - (d - 1) := by
        rw [Nat.div_add_mod]
    _ ≤ d * ((n + d - 1) / d) := by
        have h2 : (n + d - 1) % d < d := Nat.mod_lt _ hd
        omega
    _ = (n + d - 1) / d * d := Nat.mul_comm _ _

theorem Decimal.val_mk_shift (m : Int) (k : Nat) (t : Int) :
    (Decimal.val ⟨m * (10 : Int) ^ k, t⟩) = (m : ℚ) * (10 : ℚ) ^ ((k : Int) + t) := by
  unfold Decimal.val
  push_cast
  rw [zpow_add₀ (by norm_num : (10:ℚ) ≠ 0), ← zpow_natCast (10:ℚ) k]
  ring

/-- Round-up-in-magnitude: `ROUND_UP` quantization never decreases the magnitude of the value: this is
the round-up-in-magnitude (away from zero) policy. -/
theorem Decimal.abs_val_quantizeTo_up (a : Decimal) (t : Int) :
    |a.val| ≤ |(a.quantizeTo t .up).val| := by
  unfold Decimal.quantizeTo
  split
  · next h =>
      rw [Decimal.val_mk_shift]
      rw [Int.toNat_of_nonneg (by omega : (0:Int) ≤ a.e - t)]
      have : a.e - t + t = a.e := by ring
      rw [this]
      exact le_refl _
  · next h =>
      push_neg at h
      set d := (10 : Nat) ^ (t - a.e).toNat with hd
      set q := roundMag a.m.natAbs d .up with hq
      have hdpos : 0 < d := Nat.pos_pow_of_pos _ (by norm_num)
      have hle : (a.m.natAbs : ℚ) ≤ (q : ℚ) * (d : ℚ) := by
        exact_mod_cast roundMag_up_ge a.m.natAbs d hdpos
      have hdval : (d : ℚ) = (10 : ℚ) ^ ((t : Int) - a.e) := by
        rw [hd]
        push_cast
        rw [← zpow_natCast (10:ℚ), Int.toNat_of_nonneg (by omega : (0:Int) ≤ t - a.e)]
      have habs : |a.val| = (a.m.natAbs : ℚ) * (10 : ℚ) ^ a.e := by
        unfold Decimal.val
        rw [abs_mul, abs_of_pos (zpow_pos (by norm_num : (0:ℚ) < 10) a.e)]
        congr 1
        rw [Int.cast_natAbs, Int.cast_abs]
      have hres : |(Decimal.val ⟨(if a.m < 0 then -(q:Int) else (q:Int)), t⟩)| =
          (q : ℚ) * (10 : ℚ) ^ t := by
        unfold Decimal.val
        rw [abs_mul, abs_of_pos (zpow_pos (by norm_num : (0:ℚ) < 10) t)]
        congr 1
        split <;> simp
      simp only [hres, habs]
      calc (a.m.natAbs : ℚ) * (10 : ℚ) ^ a.e
          ≤ ((q : ℚ) * (d : ℚ)) * (10 : ℚ) ^ a.e := by
            apply mul_le_mul_of_nonneg_right hle
            positivity
        _ = (q : ℚ) * (10 : ℚ) ^ t := by
            rw [hdval, mul_assoc, ← zpow_add₀ (by norm_num : (10:ℚ) ≠ 0)]
            congr 2
            ring

/-! ## Reduction equations for the money operators

`Money.resultWith` is a proof-side abbreviation (not a source function) for
the shape every value-returning operator shares: construct the result `Money`
(fresh INIT history) and append the one recording operation to it. -/

def Money.resultWith (a : Decimal) (c : Currency) (σ : Store) (op : MoneyOperator)
    (ops : List Snap) : Money × Store :=
  let (result, σ') := Money.mkCore a c σ
  (result, Store.push σ' result.opsRef ⟨op, ops⟩)

theorem Money.resultWith_fst (a : Decimal) (c : Currency) (σ : Store)
    (op : MoneyOperator) (ops : List Snap) :
    (Money.resultWith a c σ op ops).1 = ⟨a, c, σ.length⟩ := rfl

theorem Store.log_alloc_self (σ : Store) (ops : List MoneyOperation) :
    Store.log (σ ++ [ops]) σ.length = ops := by
  induction σ with
  | nil => rfl
  | cons a tl _ => simp [Store.log, List.getD]

theorem Money.resultWith_log (a : Decimal) (c : Currency) (σ : Store)
    (op : MoneyOperator) (ops : List Snap) :
    Store.log (Money.resultWith a c σ op ops).2 (Money.resultWith a c σ op ops).1.opsRef
      = [⟨.initialization, [.money ⟨a, c, none⟩]⟩, ⟨op, ops⟩] := by
  show Store.log (Store.push (σ ++ [[⟨.initialization, [.money ⟨a, c, none⟩]⟩]])
    σ.length ⟨op, ops⟩) σ.length = _
  rw [Store.log_push_self _ _ _ (by simp), Store.log_alloc_self]
  rfl

theorem Money.resultWith_log_lt (a : Decimal) (c : Currency) (σ : Store)
    (op : MoneyOperator) (ops : List Snap) (r : Nat) (h : r < σ.length) :
    Store.log (Money.resultWith a c σ op ops).2 r = Store.log σ r := by
  show Store.log (Store.push (σ ++ [[⟨.initialization, [.money ⟨a, c, none⟩]⟩]])
    σ.length ⟨op, ops⟩) r = _
  rw [Store.log_push_ne _ _ _ _ (by omega), Store.log_append_lt _ _ _ h]

theorem Money.clean_operand_money_ok (self o : Money) (σ : Store)
    (h : Currency.eqb o.currency self.currency = true) :
    Money.clean_operand self (.money o) σ = .ok (o, σ) := by
  simp only [Money.clean_operand]
  rw [if_pos h]

theorem Money.clean_operand_money_mismatch (self o : Money) (σ : Store)
    (h : o.currency.isocode ≠ self.currency.isocode) :
    Money.clean_operand self (.money o) σ =
      .error (.currencyMismatch self.currency o.currency) := by
  simp only [Money.clean_operand]
  rw [if_neg (by simp [Currency.eqb, h])]

theorem Money.add_eq_of_clean (self : Money) (other : Operand) (σ σ1 : Store)
    (o : Money) (hc : Money.clean_operand self other σ = .ok (o, σ1)) :
    Money.add self other σ =
      .ok (Money.resultWith (self.currency.quantize_amount (self.amount.add o.amount) none)
        self.currency σ1 .addition [self.snap, o.snap]) := by
  unfold Money.add
  rw [hc]
  rfl

theorem Money.add_err_of_clean (self : Money) (other : Operand) (σ : Store)
    (e : Err) (hc : Money.clean_operand self other σ = .error e) :
    Money.add self other σ = .error e := by
  unfold Money.add
  rw [hc]
  rfl

theorem Money.sub_eq_of_clean (self : Money) (other : Operand) (σ σ1 : Store)
    (o : Money) (hc : Money.clean_operand self other σ = .ok (o, σ1)) :
    Money.sub self other σ =
      .ok (Money.resultWith (self.currency.quantize_amount (self.amount.sub o.amount) none)
        self.currency σ1 .substraction [self.snap, o.snap]) := by
  unfold Money.sub
  rw [hc]
  rfl

theorem Money.sub_err_of_clean (self : Money) (other : Operand) (σ : Store)
    (e : Err) (hc : Money.clean_operand self other σ = .error e) :
    Money.sub self other σ = .error e := by
  unfold Money.sub
  rw [hc]
  rfl

theorem Money.iadd_eq_of_clean (self : Money) (other : Operand) (σ σ1 : Store)
    (o : Money) (hc : Money.clean_operand self other σ = .ok (o, σ1)) :
    Money.iadd self other σ =
      .ok ({ self with amount := self.amount.add o.amount },
        Store.push σ1 self.opsRef ⟨.addition, [self.snap, o.snap]⟩) := by
  unfold Money.iadd
  rw [hc]
  rfl

theorem Money.iadd_err_of_clean (self : Money) (other : Operand) (σ : Store)
    (e : Err) (hc : Money.clean_operand self other σ = .error e) :
    Money.iadd self other σ = .error e := by
  unfold Money.iadd
  rw [hc]
  rfl

theorem Money.isub_eq_of_clean (self : Money) (other : Operand) (σ σ1 : Store)
    (o : Money) (hc : Money.clean_operand self other σ = .ok (o, σ1)) :
    Money.isub self other σ =
      .ok ({ self with amount := self.amount.sub o.amount },
        Store.push σ1 self.opsRef ⟨.substraction, [self.snap, o.snap]⟩) := by
  unfold Money.isub
  rw [hc]
  rfl

theorem Money.isub_err_of_clean (self : Money) (other : Operand) (σ : Store)
    (e : Err) (hc : Money.clean_operand self other σ = .error e) :
    Money.isub self other σ = .error e := by
  unfold Money.isub
  rw [hc]
  rfl

theorem Money.rsub_eq_of_clean (self : Money) (other : Operand) (σ σ1 : Store)
    (o : Money) (hc : Money.clean_operand self other σ = .ok (o, σ1)) :
    Money.rsub self other σ = Money.sub o (.money self) σ1 := by
  unfold Money.rsub
  rw [hc]
  rfl

theorem Money.rsub_err_of_clean (self : Money) (other : Operand) (σ : Store)
    (e : Err) (hc : Money.clean_operand self other σ = .error e) :
    Money.rsub self other σ = .error e := by
  unfold Money.rsub
  rw [hc]
  rfl

theorem Money.mul_eq_num (self : Money) (d : Decimal) (σ : Store) :
    Money.mul self (.num d) σ =
      .ok (Money.resultWith
        (self.currency.quantize_amount (self.amount.mul (self.currency.quantize_amount d none)) none)
        self.currency σ .multiplication
        [self.snap, .dec (self.currency.quantize_amount d none)]) := rfl

theorem Money.mul_err_nonnum (self : Money) (other : Operand) (σ : Store)
    (h : other.isNumber = false) :
    Money.mul self other σ = .error (.invalidOperand other) := by
  unfold Money.mul
  rw [h]
  rfl

theorem Money.truediv_eq_of_clean (self : Money) (other : Operand) (σ : Store)
    (z : Decimal) (hc : Money.clean_amount other self.currency = .ok z)
    (hz : ¬z.m = 0) :
    Money.truediv self other σ =
      .ok (Money.resultWith
        (self.currency.quantize_amount
          (self.amount.divQuantized z self.currency.quantizer
            (self.currency.provider.get_rounding self.currency.isocode)) none)
        self.currency σ .division [self.snap, .dec z]) := by
  unfold Money.truediv
  rw [hc]
  show (if z.m = 0 then _ else _) = _
  rw [if_neg hz]
  rfl

theorem Money.truediv_err_of_clean (self : Money) (other : Operand) (σ : Store)
    (e : Err) (hc : Money.clean_amount other self.currency = .error e) :
    Money.truediv self other σ = .error e := by
  unfold Money.truediv
  rw [hc]
  rfl

theorem Money.truediv_zero_of_clean (self : Money) (other : Operand) (σ : Store)
    (z : Decimal) (hc : Money.clean_amount other self.currency = .ok z)
    (hz : z.m = 0) :
    Money.truediv self other σ =
      (if self.amount.m = 0 then .error .invalidOperation else .error .divisionByZero) := by
  unfold Money.truediv
  rw [hc]
  show (if z.m = 0 then _ else _) = _
  rw [if_pos hz]
  split <;> rfl

theorem Money.init_err_cur (a : Operand) (cin : CurrencyIn) (σ : Store) (e : Err)
    (hcur : Money.clean_currency cin = .error e) :
    Money.init a cin σ = .error e := by
  unfold Money.init
  rw [hcur]
  rfl

theorem Money.init_err_amt (a : Operand) (cin : CurrencyIn) (σ : Store)
    (c : Currency) (e : Err) (hcur : Money.clean_currency cin = .ok c)
    (hamt : Money.clean_amount a c = .error e) :
    Money.init a cin σ = .error e := by
  unfold Money.init
  rw [hcur]
  show (Money.clean_amount a c >>= fun d => pure (Money.mkCore d c σ)) = _
  rw [hamt]
  rfl

theorem Money.init_eq_of_clean (a : Operand) (cin : CurrencyIn) (σ : Store)
    (c : Currency) (d : Decimal) (hcur : Money.clean_currency cin = .ok c)
    (hamt : Money.clean_amount a c = .ok d) :
    Money.init a cin σ = .ok (Money.mkCore d c σ) := by
  unfold Money.init
  rw [hcur]
  show (Money.clean_amount a c >>= fun d => pure (Money.mkCore d c σ)) = _
  rw [hamt]
  rfl

theorem Money.mkCore_log (d : Decimal) (c : Currency) (σ : Store) :
    Store.log (Money.mkCore d c σ).2 (Money.mkCore d c σ).1.opsRef
      = [⟨.initialization, [.money ⟨d, c, none⟩]⟩] := by
  show Store.log (σ ++ [[⟨.initialization, [.money ⟨d, c, none⟩]⟩]]) σ.length = _
  exact Store.log_alloc_self σ _

theorem pair_ok_eq {p : Money × Store} {r : Money} {σ' : Store}
    (h : (Except.ok p : Except Err (Money × Store)) = .ok (r, σ')) :
    p.1 = r ∧ p.2 = σ' := by
  injection h with h1
  exact ⟨by rw [h1], by rw [h1]⟩

/-! ## The claims -/

/-- C2. With the default provider, quantization always rounds up in
magnitude (away from zero): `Currency('USD').quantize_amount(Decimal('4.191'))`
returns `Decimal('4.20')`, and `quantize_amount(Decimal('4.201'))` with a
forced round-down mode returns `Decimal('4.20')`; the default rounding mode
(the base class's `get_rounding`) returns `ROUND_UP` for every code. -/
theorem C2_default_rounding_rounds_up_in_magnitude :
    (∀ code : String, DefaultCurrenciesProvider.get_rounding code = .up)
    ∧ (∀ a : Decimal, |a.val| ≤ |(USD.quantize_amount a none).val|)
    ∧ USD.quantize_amount ⟨4191, -3⟩ none = ⟨420, -2⟩
    ∧ USD.quantize_amount ⟨4201, -3⟩ (some .down) = ⟨420, -2⟩
    ∧ Currency.init "USD" none = .ok USD :=
  ⟨fun _ => rfl,
   fun a => Decimal.abs_val_quantizeTo_up a (-2),
   rfl, rfl, rfl⟩

/-- C3. Reverse subtraction promotes the scalar to a `Money` in the
receiver's currency and uses it as the minuend: `5 - Money("0.80","USD")`
equals `Money("4.20","USD")` and equals
`Money(5,'USD') - Money("0.80","USD")`. -/
theorem C3_rsub_scalar_is_minuend :
    (do
      let (m08, σ1) ← Money.init (.strNum ⟨80, -2⟩) (.code "USD") ([] : Store)
      let (r, σ2) ← Money.rsub m08 (.num ⟨5, 0⟩) σ1
      let (target, σ3) ← Money.init (.strNum ⟨420, -2⟩) (.code "USD") σ2
      let (m5, σ4) ← Money.init (.num ⟨5, 0⟩) (.cur USD) σ3
      let (fwd, _) ← Money.sub m5 (.money m08) σ4
      pure (r.amount, Money.eqb r target, Money.eqb r fwd))
      = .ok (⟨420, -2⟩, true, true) := rfl

/-- C4 counterexample. Division does *not* apply the same scalar cleaning
as multiplication: on a non-numeric scalar that does not parse, `__truediv__`
raises `InvalidAmount` (from `clean_amount`), not `InvalidOperand` — and it
even accepts the numeric string `"5"`, which `__mul__` rejects (see the C4
witness). -/
theorem C4_counterexample_div_raises_invalid_amount :
    Money.truediv ⟨⟨2500, -2⟩, USD, 0⟩ .junk [[]] = .error (.invalidAmount .junk)
    ∧ Err.invalidAmount .junk ≠ Err.invalidOperand .junk
    ∧ (((do
        let (m, σ1) ← Money.init (.num ⟨25, 0⟩) (.cur USD) ([] : Store)
        Money.truediv m (.strNum ⟨5, 0⟩) σ1 : Except Err (Money × Store)).map
          fun p => p.1.amount) = .ok ⟨500, -2⟩) :=
  ⟨rfl, by simp, rfl⟩

/-- C4 (amended). `__mul__` fails with `InvalidOperand` for every
non-`Number` scalar.  `__truediv__` has no such guard: its scalar goes straight
through `clean_amount`, so a scalar whose `str()` does not parse fails with
`InvalidAmount` instead, and a numeric string is treated like the number it
denotes. -/
theorem C4_amended_mul_guard_div_clean (self : Money) (other : Operand) (σ : Store) :
    (other.isNumber = false → Money.mul self other σ = .error (.invalidOperand other))
    ∧ Money.truediv self .junk σ = .error (.invalidAmount .junk)
    ∧ (∀ d : Decimal, Money.truediv self (.strNum d) σ = Money.truediv self (.num d) σ) :=
  ⟨fun h => Money.mul_err_nonnum self other σ h,
   Money.truediv_err_of_clean self .junk σ _ rfl,
   fun _ => rfl⟩

/-- C4 witness. `Money(25,'USD') * "5"` fails with `InvalidOperand`
(while the C4 counterexample shows `Money(25,'USD') / "5"` succeeds). -/
theorem C4_witness_mul_rejects_string :
    Money.mul ⟨⟨2500, -2⟩, USD, 0⟩ (.strNum ⟨5, 0⟩) [[]]
      = .error (.invalidOperand (.strNum ⟨5, 0⟩)) :=
  (C4_amended_mul_guard_div_clean ⟨⟨2500, -2⟩, USD, 0⟩ (.strNum ⟨5, 0⟩) [[]]).1 rfl

/-- Is this error one of the `decimal` module's arithmetic faults (Python
`ArithmeticError` subclasses `DivisionByZero` / `InvalidOperation`), rather
than one of the library's own `exceptions.py` classes? -/
def Err.isDecimalFault : Err → Bool
  | .divisionByZero => true
  | .invalidOperation => true
  | _ => false

/-- Did the call raise a decimal arithmetic fault (rather than return a value
or raise a library exception)? -/
def raisedDecimalFault (x : Except Err (Money × Store)) : Bool :=
  match x with
  | .error e => e.isDecimalFault
  | .ok _ => false

/-- C5. Dividing by a scalar that cleans to zero fails with a distinct,
uncaught arithmetic-fault error: the result is an error (no `Money` is
produced), the error is one of the `decimal` arithmetic faults, and for a
nonzero dividend it is precisely `DivisionByZero`. -/
theorem C5_div_by_cleaned_zero_is_arith_fault (self : Money) (other : Operand)
    (σ : Store) (z : Decimal)
    (hclean : Money.clean_amount other self.currency = .ok z) (hz : z.m = 0) :
    raisedDecimalFault (Money.truediv self other σ) = true
    ∧ (self.amount.m ≠ 0 → Money.truediv self other σ = .error .divisionByZero) := by
  have hred := Money.truediv_zero_of_clean self other σ z hclean hz
  constructor
  · rw [hred]
    split <;> rfl
  · intro hne
    rw [hred, if_neg hne]

/-- C5 witness. `Money(25,'USD') / 0` raises `DivisionByZero`. -/
theorem C5_witness_div_zero :
    raisedDecimalFault (Money.truediv ⟨⟨2500, -2⟩, USD, 0⟩ (.num ⟨0, 0⟩) [[]]) = true
    ∧ Money.truediv ⟨⟨2500, -2⟩, USD, 0⟩ (.num ⟨0, 0⟩) [[]] = .error .divisionByZero :=
  have h := C5_div_by_cleaned_zero_is_arith_fault ⟨⟨2500, -2⟩, USD, 0⟩ (.num ⟨0, 0⟩)
    [[]] ⟨0, -2⟩ rfl rfl
  ⟨h.1, h.2 (by decide)⟩

/-- C6. A binary money-to-money operation between different currency codes
fails with `CurrencyMismatch` carrying both currencies (receiver first), and
produces no result: this holds for `+`, `-`, `+=`, `-=` and reverse
subtraction alike. -/
theorem C6_cross_currency_mismatch (self o : Money) (σ : Store)
    (h : o.currency.isocode ≠ self.currency.isocode) :
    Money.add self (.money o) σ = .error (.currencyMismatch self.currency o.currency)
    ∧ Money.sub self (.money o) σ = .error (.currencyMismatch self.currency o.currency)
    ∧ Money.iadd self (.money o) σ = .error (.currencyMismatch self.currency o.currency)
    ∧ Money.isub self (.money o) σ = .error (.currencyMismatch self.currency o.currency)
    ∧ Money.rsub self (.money o) σ = .error (.currencyMismatch self.currency o.currency) := by
  have hc := Money.clean_operand_money_mismatch self o σ h
  exact ⟨Money.add_err_of_clean _ _ _ _ hc, Money.sub_err_of_clean _ _ _ _ hc,
    Money.iadd_err_of_clean _ _ _ _ hc, Money.isub_err_of_clean _ _ _ _ hc,
    Money.rsub_err_of_clean _ _ _ _ hc⟩

/-- C6 witness. `Money(1,'USD') + Money(1,'EUR')` fails with
`CurrencyMismatch(USD, EUR)`. -/
theorem C6_witness_usd_plus_eur :
    (do
      let (a, σ1) ← Money.init (.num ⟨1, 0⟩) (.code "USD") ([] : Store)
      let (b, σ2) ← Money.init (.num ⟨1, 0⟩) (.code "EUR") σ1
      Money.add a (.money b) σ2)
      = .error (.currencyMismatch USD EUR) :=
  (C6_cross_currency_mismatch ⟨⟨100, -2⟩, USD, 0⟩ ⟨⟨100, -2⟩, EUR, 1⟩
    [[⟨.initialization, [.money ⟨⟨100, -2⟩, USD, none⟩]⟩],
     [⟨.initialization, [.money ⟨⟨100, -2⟩, EUR, none⟩]⟩]] (by decide)).1
/-- If `clean_operand` succeeds, the store it returns agrees with the input
store on every existing reference (it at most allocates a fresh list for a
promoted scalar). -/
theorem Money.clean_operand_log (self : Money) (o : Operand) (σ σ1 : Store)
    (o' : Money) (hc : Money.clean_operand self o σ = .ok (o', σ1))
    (r : Nat) (hr : r < σ.length) : Store.log σ1 r = Store.log σ r := by
  cases o with
  | money m =>
      simp only [Money.clean_operand] at hc
      split at hc
      · injection hc with h1
        rw [show σ1 = σ from (congrArg Prod.snd h1).symm]
      · exact absurd hc (by simp)
  | num d =>
      simp only [Money.clean_operand] at hc
      rw [Money.init_eq_of_clean (.num d) (.cur self.currency) σ self.currency
        (self.currency.quantize_amount d none) rfl rfl] at hc
      injection hc with h1
      rw [show σ1 = (Money.mkCore (self.currency.quantize_amount d none) self.currency σ).2
        from (congrArg Prod.snd h1).symm]
      exact Store.log_append_lt σ _ r hr
  | strNum d => simp [Money.clean_operand] at hc
  | junk => simp [Money.clean_operand] at hc

/-- The function `clean_operand` never frees references: the store can only grow. -/
theorem Money.clean_operand_length (self : Money) (o : Operand) (σ σ1 : Store)
    (o' : Money) (hc : Money.clean_operand self o σ = .ok (o', σ1)) :
    σ.length ≤ σ1.length := by
  cases o with
  | money m =>
      simp only [Money.clean_operand] at hc
      split at hc
      · injection hc with h1
        rw [show σ1 = σ from (congrArg Prod.snd h1).symm]
      · exact absurd hc (by simp)
  | num d =>
      simp only [Money.clean_operand] at hc
      rw [Money.init_eq_of_clean (.num d) (.cur self.currency) σ self.currency
        (self.currency.quantize_amount d none) rfl rfl] at hc
      injection hc with h1
      rw [show σ1 = (Money.mkCore (self.currency.quantize_amount d none) self.currency σ).2
        from (congrArg Prod.snd h1).symm]
      simp [Money.mkCore, Store.alloc]
  | strNum d => simp [Money.clean_operand] at hc
  | junk => simp [Money.clean_operand] at hc

/-- A successful `clean_amount` returns an amount quantized at the currency's
target exponent. -/
theorem Money.clean_amount_e (a : Operand) (c : Currency) (d : Decimal)
    (h : Money.clean_amount a c = .ok d) : d.e = c.quantizer := by
  cases a with
  | num x =>
      injection h with h1
      rw [← h1]
      exact Decimal.quantizeTo_e x c.quantizer _
  | strNum x =>
      injection h with h1
      rw [← h1]
      exact Decimal.quantizeTo_e x c.quantizer _
  | money m => exact absurd h (by simp [Money.clean_amount])
  | junk => exact absurd h (by simp [Money.clean_amount])

/-- C7. A freshly constructed `Money` has an operation log of length
exactly 1 holding only INIT, and every successful arithmetic operator appends
exactly one operation: the value-returning operators return a `Money` whose
log is the fresh INIT plus their one recording operation, and the in-place
operators extend the receiver's log by exactly their one recording
operation. -/
theorem C7_history_growth :
    (∀ (a : Operand) (c : CurrencyIn) (σ : Store) (m : Money) (σ' : Store),
        Money.init a c σ = .ok (m, σ') →
        (Store.log σ' m.opsRef).map MoneyOperation.operator = [.initialization])
    ∧ (∀ (self : Money) (o : Operand) (σ : Store) (r : Money) (σ' : Store),
        Money.add self o σ = .ok (r, σ') →
        (Store.log σ' r.opsRef).map MoneyOperation.operator
          = [.initialization, .addition])
    ∧ (∀ (self : Money) (o : Operand) (σ : Store) (r : Money) (σ' : Store),
        Money.sub self o σ = .ok (r, σ') →
        (Store.log σ' r.opsRef).map MoneyOperation.operator
          = [.initialization, .substraction])
    ∧ (∀ (self : Money) (o : Operand) (σ : Store) (r : Money) (σ' : Store),
        Money.mul self o σ = .ok (r, σ') →
        (Store.log σ' r.opsRef).map MoneyOperation.operator
          = [.initialization, .multiplication])
    ∧ (∀ (self : Money) (o : Operand) (σ : Store) (r : Money) (σ' : Store),
        Money.truediv self o σ = .ok (r, σ') →
        (Store.log σ' r.opsRef).map MoneyOperation.operator
          = [.initialization, .division])
    ∧ (∀ (self : Money) (σ : Store) (r : Money) (σ' : Store),
        Money.neg self σ = .ok (r, σ') →
        (Store.log σ' r.opsRef).map MoneyOperation.operator
          = [.initialization, .multiplication])
    ∧ (∀ (self : Money) (o : Operand) (σ : Store) (m' : Money) (σ' : Store),
        self.opsRef < σ.length → Money.iadd self o σ = .ok (m', σ') →
        (Store.log σ' self.opsRef).map MoneyOperation.operator
          = (Store.log σ self.opsRef).map MoneyOperation.operator ++ [.addition])
    ∧ (∀ (self : Money) (o : Operand) (σ : Store) (m' : Money) (σ' : Store),
        self.opsRef < σ.length → Money.isub self o σ = .ok (m', σ') →
        (Store.log σ' self.opsRef).map MoneyOperation.operator
          = (Store.log σ self.opsRef).map MoneyOperation.operator ++ [.substraction]) := by
  have hinit : ∀ (a : Operand) (c : CurrencyIn) (σ : Store) (m : Money) (σ' : Store),
      Money.init a c σ = .ok (m, σ') →
      (Store.log σ' m.opsRef).map MoneyOperation.operator = [.initialization] := by
    intro a c σ m σ' h
    cases hcur : Money.clean_currency c with
    | error e =>
        rw [Money.init_err_cur _ _ _ _ hcur] at h
        exact absurd h (by simp)
    | ok c' =>
        cases hamt : Money.clean_amount a c' with
        | error e =>
            rw [Money.init_err_amt _ _ _ _ _ hcur hamt] at h
            exact absurd h (by simp)
        | ok d =>
            rw [Money.init_eq_of_clean _ _ _ _ _ hcur hamt] at h
            obtain ⟨h1, h2⟩ := pair_ok_eq h
            rw [← h1, ← h2, Money.mkCore_log]
            rfl
  have hadd : ∀ (self : Money) (o : Operand) (σ : Store) (r : Money) (σ' : Store),
      Money.add self o σ = .ok (r, σ') →
      (Store.log σ' r.opsRef).map MoneyOperation.operator = [.initialization, .addition] := by
    intro self o σ r σ' h
    cases hc : Money.clean_operand self o σ with
    | error e =>
        rw [Money.add_err_of_clean _ _ _ _ hc] at h
        exact absurd h (by simp)
    | ok p =>
        obtain ⟨o', σ1⟩ := p
        rw [Money.add_eq_of_clean _ _ _ _ _ hc] at h
        obtain ⟨h1, h2⟩ := pair_ok_eq h
        rw [← h1, ← h2, Money.resultWith_log]
        rfl
  have hsub : ∀ (self : Money) (o : Operand) (σ : Store) (r : Money) (σ' : Store),
      Money.sub self o σ = .ok (r, σ') →
      (Store.log σ' r.opsRef).map MoneyOperation.operator = [.initialization, .substraction] := by
    intro self o σ r σ' h
    cases hc : Money.clean_operand self o σ with
    | error e =>
        rw [Money.sub_err_of_clean _ _ _ _ hc] at h
        exact absurd h (by simp)
    | ok p =>
        obtain ⟨o', σ1⟩ := p
        rw [Money.sub_eq_of_clean _ _ _ _ _ hc] at h
        obtain ⟨h1, h2⟩ := pair_ok_eq h
        rw [← h1, ← h2, Money.resultWith_log]
        rfl
  have hmul : ∀ (self : Money) (o : Operand) (σ : Store) (r : Money) (σ' : Store),
      Money.mul self o σ = .ok (r, σ') →
      (Store.log σ' r.opsRef).map MoneyOperation.operator = [.initialization, .multiplication] := by
    intro self o σ r σ' h
    cases o with
    | num d =>
        rw [Money.mul_eq_num] at h
        obtain ⟨h1, h2⟩ := pair_ok_eq h
        rw [← h1, ← h2, Money.resultWith_log]
        rfl
    | money m =>
        rw [Money.mul_err_nonnum self (.money m) σ rfl] at h
        exact absurd h (by simp)
    | strNum d =>
        rw [Money.mul_err_nonnum self (.strNum d) σ rfl] at h
        exact absurd h (by simp)
    | junk =>
        rw [Money.mul_err_nonnum self .junk σ rfl] at h
        exact absurd h (by simp)
  have hdiv : ∀ (self : Money) (o : Operand) (σ : Store) (r : Money) (σ' : Store),
      Money.truediv self o σ = .ok (r, σ') →
      (Store.log σ' r.opsRef).map MoneyOperation.operator = [.initialization, .division] := by
    intro self o σ r σ' h
    cases hc : Money.clean_amount o self.currency with
    | error e =>
        rw [Money.truediv_err_of_clean _ _ _ _ hc] at h
        exact absurd h (by simp)
    | ok z =>
        by_cases hz : z.m = 0
        · rw [Money.truediv_zero_of_clean _ _ _ _ hc hz] at h
          split at h <;> exact absurd h (by simp)
        · rw [Money.truediv_eq_of_clean _ _ _ _ hc hz] at h
          obtain ⟨h1, h2⟩ := pair_ok_eq h
          rw [← h1, ← h2, Money.resultWith_log]
          rfl
  have hiadd : ∀ (self : Money) (o : Operand) (σ : Store) (m' : Money) (σ' : Store),
      self.opsRef < σ.length → Money.iadd self o σ = .ok (m', σ') →
      (Store.log σ' self.opsRef).map MoneyOperation.operator
        = (Store.log σ self.opsRef).map MoneyOperation.operator ++ [.addition] := by
    intro self o σ m' σ' hv h
    cases hc : Money.clean_operand self o σ with
    | error e =>
        rw [Money.iadd_err_of_clean _ _ _ _ hc] at h
        exact absurd h (by simp)
    | ok p =>
        obtain ⟨o', σ1⟩ := p
        rw [Money.iadd_eq_of_clean _ _ _ _ _ hc] at h
        obtain ⟨h1, h2⟩ := pair_ok_eq h
        rw [← h2]
        rw [Store.log_push_self _ _ _
          (lt_of_lt_of_le hv (Money.clean_operand_length _ _ _ _ _ hc))]
        rw [Money.clean_operand_log _ _ _ _ _ hc _ hv]
        simp
  have hisub : ∀ (self : Money) (o : Operand) (σ : Store) (m' : Money) (σ' : Store),
      self.opsRef < σ.length → Money.isub self o σ = .ok (m', σ') →
      (Store.log σ' self.opsRef).map MoneyOperation.operator
        = (Store.log σ self.opsRef).map MoneyOperation.operator ++ [.substraction] := by
    intro self o σ m' σ' hv h
    cases hc : Money.clean_operand self o σ with
    | error e =>
        rw [Money.isub_err_of_clean _ _ _ _ hc] at h
        exact absurd h (by simp)
    | ok p =>
        obtain ⟨o', σ1⟩ := p
        rw [Money.isub_eq_of_clean _ _ _ _ _ hc] at h
        obtain ⟨h1, h2⟩ := pair_ok_eq h
        rw [← h2]
        rw [Store.log_push_self _ _ _
          (lt_of_lt_of_le hv (Money.clean_operand_length _ _ _ _ _ hc))]
        rw [Money.clean_operand_log _ _ _ _ _ hc _ hv]
        simp
  exact ⟨hinit, hadd, hsub, hmul, hdiv,
    fun self σ r σ' h => hmul self (.num ⟨-1, 0⟩) σ r σ' h, hiadd, hisub⟩

/-- C7 witness. `Money(5,'USD')` is born with the one-INIT log, and
`m += m` appends exactly one ADDITION to it. -/
theorem C7_witness_concrete :
    (Store.log [[⟨.initialization, [.money ⟨⟨500, -2⟩, USD, none⟩]⟩]]
        (0 : Nat)).map MoneyOperation.operator = [.initialization]
    ∧ (Store.log
          (Store.push [[⟨.initialization, [.money ⟨⟨500, -2⟩, USD, none⟩]⟩]] 0
            ⟨.addition, [.money ⟨⟨500, -2⟩, USD, some 0⟩, .money ⟨⟨500, -2⟩, USD, some 0⟩]⟩)
          0).map MoneyOperation.operator
        = (Store.log [[⟨.initialization, [.money ⟨⟨500, -2⟩, USD, none⟩]⟩]]
            (0 : Nat)).map MoneyOperation.operator ++ [.addition] :=
  ⟨C7_history_growth.1 (.num ⟨5, 0⟩) (.cur USD) [] ⟨⟨500, -2⟩, USD, 0⟩ _ rfl,
   C7_history_growth.2.2.2.2.2.2.1 ⟨⟨500, -2⟩, USD, 0⟩ (.money ⟨⟨500, -2⟩, USD, 0⟩)
     [[⟨.initialization, [.money ⟨⟨500, -2⟩, USD, none⟩]⟩]] _ _ (by decide) rfl⟩
/-- C10. Every `Money` produced by construction or by a value-returning
arithmetic operator (`+`, `-`, `*`, `/`, negate) is routed through the
constructor's `clean_amount` step, so its stored amount sits exactly at its
currency's quantization exponent; the value-returning operators keep the
receiver's currency; and a sum or difference of two amounts already at a
common exponent stays at that exponent (the in-place operators, which bypass
the constructor, therefore also stay within precision on canonical inputs). -/
theorem C10_value_results_quantized :
    (∀ (a : Operand) (c : CurrencyIn) (σ : Store) (m : Money) (σ' : Store),
        Money.init a c σ = .ok (m, σ') → m.amount.e = m.currency.quantizer)
    ∧ (∀ (self : Money) (o : Operand) (σ : Store) (r : Money) (σ' : Store),
        Money.add self o σ = .ok (r, σ') →
        r.currency = self.currency ∧ r.amount.e = r.currency.quantizer)
    ∧ (∀ (self : Money) (o : Operand) (σ : Store) (r : Money) (σ' : Store),
        Money.sub self o σ = .ok (r, σ') →
        r.currency = self.currency ∧ r.amount.e = r.currency.quantizer)
    ∧ (∀ (self : Money) (o : Operand) (σ : Store) (r : Money) (σ' : Store),
        Money.mul self o σ = .ok (r, σ') →
        r.currency = self.currency ∧ r.amount.e = r.currency.quantizer)
    ∧ (∀ (self : Money) (o : Operand) (σ : Store) (r : Money) (σ' : Store),
        Money.truediv self o σ = .ok (r, σ') →
        r.currency = self.currency ∧ r.amount.e = r.currency.quantizer)
    ∧ (∀ (self : Money) (σ : Store) (r : Money) (σ' : Store),
        Money.neg self σ = .ok (r, σ') →
        r.currency = self.currency ∧ r.amount.e = r.currency.quantizer)
    ∧ (∀ (a b : Decimal) (t : Int), a.e = t → b.e = t →
        (a.add b).e = t ∧ (a.sub b).e = t) := by
  have hinit : ∀ (a : Operand) (c : CurrencyIn) (σ : Store) (m : Money) (σ' : Store),
      Money.init a c σ = .ok (m, σ') → m.amount.e = m.currency.quantizer := by
    intro a c σ m σ' h
    cases hcur : Money.clean_currency c with
    | error e =>
        rw [Money.init_err_cur _ _ _ _ hcur] at h
        exact absurd h (by simp)
    | ok c' =>
        cases hamt : Money.clean_amount a c' with
        | error e =>
            rw [Money.init_err_amt _ _ _ _ _ hcur hamt] at h
            exact absurd h (by simp)
        | ok d =>
            rw [Money.init_eq_of_clean _ _ _ _ _ hcur hamt] at h
            obtain ⟨h1, h2⟩ := pair_ok_eq h
            rw [← h1]
            exact Money.clean_amount_e a c' d hamt
  have hadd : ∀ (self : Money) (o : Operand) (σ : Store) (r : Money) (σ' : Store),
      Money.add self o σ = .ok (r, σ') →
      r.currency = self.currency ∧ r.amount.e = r.currency.quantizer := by
    intro self o σ r σ' h
    cases hc : Money.clean_operand self o σ with
    | error e =>
        rw [Money.add_err_of_clean _ _ _ _ hc] at h
        exact absurd h (by simp)
    | ok p =>
        obtain ⟨o', σ1⟩ := p
        rw [Money.add_eq_of_clean _ _ _ _ _ hc] at h
        obtain ⟨h1, h2⟩ := pair_ok_eq h
        rw [← h1]
        exact ⟨rfl, Decimal.quantizeTo_e _ _ _⟩
  have hsub : ∀ (self : Money) (o : Operand) (σ : Store) (r : Money) (σ' : Store),
      Money.sub self o σ = .ok (r, σ') →
      r.currency = self.currency ∧ r.amount.e = r.currency.quantizer := by
    intro self o σ r σ' h
    cases hc : Money.clean_operand self o σ with
    | error e =>
        rw [Money.sub_err_of_clean _ _ _ _ hc] at h
        exact absurd h (by simp)
    | ok p =>
        obtain ⟨o', σ1⟩ := p
        rw [Money.sub_eq_of_clean _ _ _ _ _ hc] at h
        obtain ⟨h1, h2⟩ := pair_ok_eq h
        rw [← h1]
        exact ⟨rfl, Decimal.quantizeTo_e _ _ _⟩
  have hmul : ∀ (self : Money) (o : Operand) (σ : Store) (r : Money) (σ' : Store),
      Money.mul self o σ = .ok (r, σ') →
      r.currency = self.currency ∧ r.amount.e = r.currency.quantizer := by
    intro self o σ r σ' h
    cases o with
    | num d =>
        rw [Money.mul_eq_num] at h
        obtain ⟨h1, h2⟩ := pair_ok_eq h
        rw [← h1]
        exact ⟨rfl, Decimal.quantizeTo_e _ _ _⟩
    | money m =>
        rw [Money.mul_err_nonnum self (.money m) σ rfl] at h
        exact absurd h (by simp)
    | strNum d =>
        rw [Money.mul_err_nonnum self (.strNum d) σ rfl] at h
        exact absurd h (by simp)
    | junk =>
        rw [Money.mul_err_nonnum self .junk σ rfl] at h
        exact absurd h (by simp)
  have hdiv : ∀ (self : Money) (o : Operand) (σ : Store) (r : Money) (σ' : Store),
      Money.truediv self o σ = .ok (r, σ') →
      r.currency = self.currency ∧ r.amount.e = r.currency.quantizer := by
    intro self o σ r σ' h
    cases hc : Money.clean_amount o self.currency with
    | error e =>
        rw [Money.truediv_err_of_clean _ _ _ _ hc] at h
        exact absurd h (by simp)
    | ok z =>
        by_cases hz : z.m = 0
        · rw [Money.truediv_zero_of_clean _ _ _ _ hc hz] at h
          split at h <;> exact absurd h (by simp)
        · rw [Money.truediv_eq_of_clean _ _ _ _ hc hz] at h
          obtain ⟨h1, h2⟩ := pair_ok_eq h
          rw [← h1]
          exact ⟨rfl, Decimal.quantizeTo_e _ _ _⟩
  refine ⟨hinit, hadd, hsub, hmul, hdiv,
    fun self σ r σ' h => hmul self (.num ⟨-1, 0⟩) σ r σ' h, ?_⟩
  intro a b t h1 h2
  constructor
  · show min a.e b.e = t
    rw [h1, h2, min_self]
  · show min a.e b.e = t
    rw [h1, h2, min_self]

/-- C10 witness. `Money("2.02",'USD') + Money("2.18",'USD')` returns a
`USD` money whose stored exponent is exactly the currency's two decimal
places. -/
theorem C10_witness_add_quantized :
    (Money.mk ⟨420, -2⟩ USD 2).currency = USD
    ∧ (Money.mk ⟨420, -2⟩ USD 2).amount.e = (Money.mk ⟨420, -2⟩ USD 2).currency.quantizer :=
  C10_value_results_quantized.2.1 ⟨⟨202, -2⟩, USD, 0⟩ (.money ⟨⟨218, -2⟩, USD, 1⟩)
    [[], []] ⟨⟨420, -2⟩, USD, 2⟩ _ rfl
/-- C1 counterexample. `a + b` does *not* store the raw sum
`self.amount + other.amount`: the result goes through the `Money` constructor,
whose `clean_amount` re-quantizes it.  Concretely, with two constructor-built
moneys that are the *same currency* under `Currency.__eq__` (isocode `USD`) —
`a = Money(1, Currency('USD'))` and
`b = Money('1.006', Currency('USD', ThreeDPProvider))` — the raw sum is
`2.006` but `a + b` stores `2.01` (re-quantized, `ROUND_UP`, two places), so
the stored amount is normalized at construction, never left beyond the
receiver's precision for `formatted()` to fix up. -/
theorem C1_counterexample_add_requantizes :
    (do
      let (a, σ1) ← Money.init (.num ⟨1, 0⟩) (.cur USD) ([] : Store)
      let (b, σ2) ← Money.init (.strNum ⟨1006, -3⟩) (.cur USD3) σ1
      let (r, _) ← Money.add a (.money b) σ2
      pure (Currency.eqb b.currency a.currency, r.amount,
        r.amount.numEq (a.amount.add b.amount)))
      = .ok (true, ⟨201, -2⟩, false) := rfl

/-- C1 (amended). `a + b` and `a - b` store
`quantize(self.amount ± other.amount)` — the result is built by the `Money`
constructor, which re-quantizes via `clean_amount`.  When both stored amounts
already sit at the receiver currency's quantization exponent (the canonical
case: every amount the constructor produces for that currency), the
re-quantization is the identity, so the stored amount equals the raw sum or
difference — and its exponent stays exactly at the currency's precision, so
it can never exceed it. -/
theorem C1_amended_add_sub_store_quantized_sum (self o : Money) (σ : Store)
    (hcur : Currency.eqb o.currency self.currency = true)
    (h1 : self.amount.e = self.currency.quantizer)
    (h2 : o.amount.e = self.currency.quantizer) :
    ((Money.add self (.money o) σ).map fun p => p.1.amount)
      = .ok (self.amount.add o.amount)
    ∧ ((Money.sub self (.money o) σ).map fun p => p.1.amount)
      = .ok (self.amount.sub o.amount)
    ∧ (self.amount.add o.amount).e = self.currency.quantizer
    ∧ (self.amount.sub o.amount).e = self.currency.quantizer := by
  have hadde : (self.amount.add o.amount).e = self.currency.quantizer := by
    show min self.amount.e o.amount.e = _
    rw [h1, h2, min_self]
  have hsube : (self.amount.sub o.amount).e = self.currency.quantizer := by
    show min self.amount.e o.amount.e = _
    rw [h1, h2, min_self]
  have hco := Money.clean_operand_money_ok self o σ hcur
  refine ⟨?_, ?_, hadde, hsube⟩
  · rw [Money.add_eq_of_clean _ _ _ _ _ hco]
    show Except.ok (self.currency.quantize_amount (self.amount.add o.amount) none) = _
    rw [show self.currency.quantize_amount (self.amount.add o.amount) none
      = self.amount.add o.amount from Decimal.quantizeTo_exact _ _ _ hadde]
  · rw [Money.sub_eq_of_clean _ _ _ _ _ hco]
    show Except.ok (self.currency.quantize_amount (self.amount.sub o.amount) none) = _
    rw [show self.currency.quantize_amount (self.amount.sub o.amount) none
      = self.amount.sub o.amount from Decimal.quantizeTo_exact _ _ _ hsube]

/-- C1 witness. `Money("2.02",'USD') + Money("2.18",'USD')` stores exactly
the raw sum `4.20`, at the currency's two-decimal exponent. -/
theorem C1_witness_canonical_add :
    ((Money.add ⟨⟨202, -2⟩, USD, 0⟩ (.money ⟨⟨218, -2⟩, USD, 1⟩) [[], []]).map
        fun p => p.1.amount) = .ok ⟨420, -2⟩
    ∧ (Decimal.add ⟨202, -2⟩ ⟨218, -2⟩).e = USD.quantizer :=
  have h := C1_amended_add_sub_store_quantized_sum ⟨⟨202, -2⟩, USD, 0⟩
    ⟨⟨218, -2⟩, USD, 1⟩ [[], []] rfl rfl rfl
  ⟨h.1.trans rfl, h.2.2.1⟩

/-- The store holding `Money(5,'USD').operations` (ref 0) and
`Money(1,'USD').operations` (ref 1), as the C8 scenario starts from. -/
def c8Store : Store :=
  [[⟨.initialization, [.money ⟨⟨500, -2⟩, USD, none⟩]⟩],
   [⟨.initialization, [.money ⟨⟨100, -2⟩, USD, none⟩]⟩]]

/-- The ADDITION record `m += n` appends in the C8 scenario. -/
def c8Op : MoneyOperation :=
  ⟨.addition, [.money ⟨⟨500, -2⟩, USD, some 0⟩, .money ⟨⟨100, -2⟩, USD, some 1⟩]⟩

/-- C8 counterexample. Operand snapshots are `copy.copy` — *shallow* —
copies: after `m = Money(5,'USD')` and `r = m + m`, the ADDITION operation in
`r`'s history holds snapshots of `m` whose `operations` field is the same list
object as `m.operations` (reference `some 0`).  A later `m += 1` appends to
that shared list, growing it from length 1 to length 2 — so the in-place
mutation of the operand retroactively alters the previously recorded
snapshot's captured operation log (while the snapshot's amount, `5.00`,
stays unchanged). -/
theorem C8_counterexample_shared_operations_list :
    (do
      let (m, σ1) ← Money.init (.num ⟨5, 0⟩) (.cur USD) ([] : Store)
      let (r, σ2) ← Money.add m (.money m) σ1
      let (_, σ3) ← Money.iadd m (.num ⟨1, 0⟩) σ2
      pure (Store.log σ2 r.opsRef, m.opsRef,
        (Store.log σ2 m.opsRef).length, (Store.log σ3 m.opsRef).length))
      = .ok ([⟨.initialization, [.money ⟨⟨1000, -2⟩, USD, none⟩]⟩,
              ⟨.addition, [.money ⟨⟨500, -2⟩, USD, some 0⟩,
                           .money ⟨⟨500, -2⟩, USD, some 0⟩]⟩],
             0, 1, 2) := rfl

/-- C8 (amended). What an in-place operation does to recorded history:
`m += other` leaves every *other* operations-list object in the store — and
hence every recorded snapshot's amount, currency and reference fields, which
are plain values — unchanged, but it appends one operation to `m`'s own
operations list, which is exactly the list every earlier shallow-copied
snapshot of `m` shares; a snapshot's captured log is therefore *not*
insulated from later in-place mutation of the original (the amount is, since
`self.amount += ...` rebinds rather than mutates the `Decimal`). -/
theorem C8_amended_inplace_mutation_frame (self : Money) (o : Operand) (σ : Store)
    (m' : Money) (σ' : Store) (hv : self.opsRef < σ.length)
    (h : Money.iadd self o σ = .ok (m', σ')) :
    (∀ r, r < σ.length → r ≠ self.opsRef → Store.log σ' r = Store.log σ r)
    ∧ (Store.log σ' self.opsRef).length = (Store.log σ self.opsRef).length + 1 := by
  cases hc : Money.clean_operand self o σ with
  | error e =>
      rw [Money.iadd_err_of_clean _ _ _ _ hc] at h
      exact absurd h (by simp)
  | ok p =>
      obtain ⟨o', σ1⟩ := p
      rw [Money.iadd_eq_of_clean _ _ _ _ _ hc] at h
      obtain ⟨h1, h2⟩ := pair_ok_eq h
      rw [← h2]
      constructor
      · intro r hr hne
        rw [Store.log_push_ne _ _ _ _ hne]
        exact Money.clean_operand_log _ _ _ _ _ hc _ hr
      · rw [Store.log_push_self _ _ _
          (lt_of_lt_of_le hv (Money.clean_operand_length _ _ _ _ _ hc))]
        rw [Money.clean_operand_log _ _ _ _ _ hc _ hv]
        simp

/-- C8 witness. `Money(5,'USD') += Money(1,'USD')`: the operand's log
object (ref 1) is untouched, the receiver's log (ref 0) — shared with all its
earlier snapshots — grows by one. -/
theorem C8_witness_inplace :
    (∀ r, r < c8Store.length → r ≠ 0 →
      Store.log (Store.push c8Store 0 c8Op) r = Store.log c8Store r)
    ∧ (Store.log (Store.push c8Store 0 c8Op) 0).length
        = (Store.log c8Store 0).length + 1 :=
  C8_amended_inplace_mutation_frame ⟨⟨500, -2⟩, USD, 0⟩ (.money ⟨⟨100, -2⟩, USD, 1⟩)
    c8Store _ _ (by decide) rfl

/-- Do two arithmetic calls both succeed and return `Money` values equal under
`Money.__eq__`? -/
def moneyResultEqb (x y : Except Err (Money × Store)) : Bool :=
  match x, y with
  | .ok (m1, _), .ok (m2, _) => Money.eqb m1 m2
  | _, _ => false

/-- C9 counterexample. Addition is *not* commutative for every pair of
same-currency moneys: currencies are equal by isocode alone, so
`a = Money(1, Currency('USD'))` and
`b = Money('1.006', Currency('USD', ThreeDPProvider))` are same-currency, yet
`a + b` quantizes the sum to two places (`2.01`) while `b + a` quantizes it to
three (`2.006`), and the two results are not equal under `Money.__eq__`. -/
theorem C9_counterexample_same_code_distinct_providers :
    (do
      let (a, σ1) ← Money.init (.num ⟨1, 0⟩) (.cur USD) ([] : Store)
      let (b, σ2) ← Money.init (.strNum ⟨1006, -3⟩) (.cur USD3) σ1
      let (r1, _) ← Money.add a (.money b) σ2
      let (r2, _) ← Money.add b (.money a) σ2
      pure (Currency.eqb a.currency b.currency, r1.amount, r2.amount,
        Money.eqb r1 r2))
      = .ok (true, ⟨201, -2⟩, ⟨2006, -3⟩, false) := rfl

/-- C9 (amended). Addition *is* commutative for same-currency moneys
whenever the two bound providers agree on the decimal places and rounding for
the shared code — in particular whenever the two moneys share a provider (the
ordinary situation): `a + b == b + a` under `Money.__eq__`, whatever stores
the two calls run against. -/
theorem C9_amended_add_commutative_when_providers_agree (a b : Money)
    (σ1 σ2 : Store) (hiso : a.currency.isocode = b.currency.isocode)
    (hdp : a.currency.provider.get_decimal_places a.currency.isocode
         = b.currency.provider.get_decimal_places b.currency.isocode)
    (hrd : a.currency.provider.get_rounding a.currency.isocode
         = b.currency.provider.get_rounding b.currency.isocode) :
    moneyResultEqb (Money.add a (.money b) σ1) (Money.add b (.money a) σ2) = true := by
  have hc1 : Currency.eqb b.currency a.currency = true := by
    simp [Currency.eqb, hiso]
  have hc2 : Currency.eqb a.currency b.currency = true := by
    simp [Currency.eqb, hiso]
  rw [Money.add_eq_of_clean _ _ _ _ _ (Money.clean_operand_money_ok a b σ1 hc1),
      Money.add_eq_of_clean _ _ _ _ _ (Money.clean_operand_money_ok b a σ2 hc2)]
  show ((Currency.quantize_amount a.currency (a.amount.add b.amount) none).numEq
      (Currency.quantize_amount b.currency (b.amount.add a.amount) none)
      && (a.currency.isocode == b.currency.isocode)) = true
  have hq : Currency.quantize_amount b.currency (b.amount.add a.amount) none
      = Currency.quantize_amount a.currency (a.amount.add b.amount) none := by
    unfold Currency.quantize_amount Currency.quantizer
    simp only [Option.getD]
    rw [Decimal.add_comm' b.amount a.amount, ← hdp, ← hrd]
  rw [hq, Decimal.numEq_refl]
  simp [hiso]

/-- C9 witness. `Money("2.02",'USD') + Money("2.18",'USD')` equals
`Money("2.18",'USD') + Money("2.02",'USD')`. -/
theorem C9_witness_commutative_default :
    moneyResultEqb
      (Money.add ⟨⟨202, -2⟩, USD, 0⟩ (.money ⟨⟨218, -2⟩, USD, 1⟩) [[], []])
      (Money.add ⟨⟨218, -2⟩, USD, 1⟩ (.money ⟨⟨202, -2⟩, USD, 0⟩) [[], []]) = true :=
  C9_amended_add_commutative_when_providers_agree ⟨⟨202, -2⟩, USD, 0⟩
    ⟨⟨218, -2⟩, USD, 1⟩ [[], []] [[], []] rfl rfl rfl

end Monon
